import Mathlib

/-!
Verification development for the conversion-orchestration core of
`src/main.py` (OCR-to-Markdown).

The Python source is shallowly embedded: each converter method becomes a
pure Lean function over an explicit environment record describing the
observable behaviour of its collaborators (filesystem, the spawned
`docling` process, HTTP, pytube) and over explicit event schedules for
the asynchronous parts.  Exceptions raised inside a `try` block are
modelled by boolean fields of the environment naming the raise site; the
`except` handler of the source becomes an explicit catch function.
-/

/-- `str.lower()` on a Python string, as used on `Path(...).suffix`:
lower-cases every character. -/
def strLower (s : String) : String := ⟨s.data.map Char.toLower⟩

/-- `leadsWith n h` decides whether `n` is an initial segment of `h`
(character-wise). Helper for the Python substring test `n in h`. -/
def leadsWith : List Char → List Char → Bool
  | [], _ => true
  | _ :: _, [] => false
  | a :: as, b :: bs => a == b && leadsWith as bs

/-- Python's substring test `needle in hay` on character lists. -/
def containsSub (needle : List Char) : List Char → Bool
  | [] => needle.isEmpty
  | c :: rest => leadsWith needle (c :: rest) || containsSub needle rest

/-- Python `needle in hay` on strings. -/
def strContains (needle hay : String) : Bool :=
  containsSub needle.toList hay.toList

/-- `main.py` lines 19-23: `get_supported_extensions()`. -/
def get_supported_extensions : List String :=
  [".pdf", ".docx", ".pptx", ".html", ".txt",
   ".csv", ".xlsx", ".ppt", ".doc", ".xml"]

/-! ## `DoclingToMarkdownConverter.convert_file` (`main.py` lines 197-299) -/

/-- Environment of one `convert_file` invocation: the converter's state at
entry plus the observable behaviour of filesystem and the spawned
`docling` process.  Machine behaviour is given per loop iteration `i`
(the `i`-th pass of the `while self.process.poll() is None` loop). -/
structure FileEnv where
  /-- the `input_path` argument -/
  inputPath : String
  /-- `Path(input_path).exists()` -/
  inputExists : Bool
  /-- `Path(input_path).suffix` -/
  suffix : String
  /-- `Path(input_path).stem` -/
  stem : String
  /-- `Path(input_path).stat().st_size` -/
  fileSize : Nat
  /-- the `output_path` argument (`None` ↦ `none`) -/
  outputPath : Option String
  /-- value of `self.cancel_requested` when `convert_file` is entered
  (possibly left set by a previous job) -/
  initCancel : Bool
  /-- `subprocess.Popen` raises (e.g. `docling` not installed) -/
  popenRaises : Bool
  /-- number of loop iterations for which `self.process.poll()` returns
  `None` (absent cancellation, the loop body runs this many times) -/
  iterations : Nat
  /-- `self.process.stdout.readline()` returns a non-empty line at
  iteration `i` -/
  stdoutLine : Nat → Bool
  /-- `self.process.stderr.readline()` returns a non-empty line at
  iteration `i` -/
  stderrLine : Nat → Bool
  /-- `communicate()` returns leftover stdout text -/
  finalStdout : Bool
  /-- `communicate()` returns leftover stderr text -/
  finalStderr : Bool
  /-- `self.process.returncode` after exit -/
  returncode : Int
  /-- `some j` iff `self.cancel_conversion()` is called during the run
  (i.e. after the line-225 reset), such that the flag read at the top of
  loop iteration `i` is `True` exactly when `j ≤ i` -/
  cancelEvent : Option Nat

/-- The `if self.cancel_requested:` read at the top of loop iteration `i`
(the flag was reset to `False` at line 225, so only a during-run
`cancel_conversion` call is visible). -/
def cancelObserved (env : FileEnv) (i : Nat) : Bool :=
  match env.cancelEvent with
  | some j => decide (j ≤ i)
  | none => false

/-- `main.py` lines 234-241: the `docling` command line, with the
large-file flag appended when the input exceeds 5 MiB. -/
def buildCmd (inputPath outPath : String) (fileSize : Nat) : List String :=
  ["docling", inputPath, "--output", outPath] ++
    (if 5 * 1024 * 1024 < fileSize then ["--optimize-large-files"] else [])

/-- lines 218-221: default output path `output_files/<stem>.md` when the
`output_path` argument is `None`. -/
def resolvedOutput (env : FileEnv) : String :=
  env.outputPath.getD ("output_files/" ++ env.stem ++ ".md")

/-- The monitoring loop (lines 255-276).  Arguments: current iteration
index, remaining iterations before `poll()` stops returning `None`, and
`len(stdout_lines)` so far.  Returns the list of values passed to
`progress_callback` inside the loop, and `none` if the loop exited via
cancellation (after `self.process.terminate()`), or `some lines` with the
final `len(stdout_lines)` on normal exit. -/
def monitor (env : FileEnv) : Nat → Nat → Nat → List Nat × Option Nat
  | _, 0, lines => ([], some lines)
  | i, fuel + 1, lines =>
    if cancelObserved env i then ([], none)
    else
      let lines1 := lines + (if env.stdoutLine i then 1 else 0)
      let p := min 90 (10 + 2 * lines1)
      let r := monitor env (i + 1) fuel lines1
      (p :: r.1, r.2)

/-- Observable outcome of the `try` body of `convert_file`.  `exc` is
true when an exception escaped to the `except` handler at line 295. -/
structure BodyOut where
  exc : Bool
  result : Bool
  /-- all values passed to `progress_callback`, in order -/
  progress : List Nat
  /-- both validation checks (lines 210-216) passed -/
  validated : Bool
  /-- `subprocess.Popen` returned a process handle -/
  spawned : Bool
  /-- `self.process.terminate()` was called (graceful terminate, line 257) -/
  terminated : Bool
  /-- the `cmd` list built at lines 234-241 (empty if never built) -/
  cmd : List String
  deriving Repr, DecidableEq

/-- The `try` body of `convert_file` (lines 209-293). -/
def convert_file_body (env : FileEnv) : BodyOut :=
  if !env.inputExists then
    { exc := false, result := false, progress := [], validated := false,
      spawned := false, terminated := false, cmd := [] }
  else if !(get_supported_extensions.contains (strLower env.suffix)) then
    { exc := false, result := false, progress := [], validated := false,
      spawned := false, terminated := false, cmd := [] }
  else
    -- lines 218-222: output resolution, directory creation;
    -- line 225: `self.cancel_requested = False` (drops `env.initCancel`);
    -- line 231: `progress_callback(10)`
    let cmd := buildCmd env.inputPath (resolvedOutput env) env.fileSize
    if env.popenRaises then
      { exc := true, result := false, progress := [10], validated := true,
        spawned := false, terminated := false, cmd := cmd }
    else
      let r := monitor env 0 env.iterations 0
      if r.2.isNone then
        -- lines 256-259: cancellation observed, terminate, return False
        { exc := false, result := false, progress := 10 :: r.1,
          validated := true, spawned := true, terminated := true, cmd := cmd }
      else if env.returncode = 0 then
        -- lines 285-289: success, report 100, return True
        { exc := false, result := true, progress := (10 :: r.1) ++ [100],
          validated := true, spawned := true, terminated := false, cmd := cmd }
      else
        -- lines 290-293: non-zero exit, return False
        { exc := false, result := false, progress := 10 :: r.1,
          validated := true, spawned := true, terminated := false, cmd := cmd }

/-- Result of `convert_file` after the `except` handler (lines 295-299):
any exception is caught and turned into a `False` return. -/
structure RunResult where
  result : Bool
  progress : List Nat
  validated : Bool
  spawned : Bool
  terminated : Bool
  cmd : List String
  deriving Repr, DecidableEq

/-- `convert_file` (lines 197-299): the `try` body guarded by the
`except Exception` handler that returns `False`. -/
def convert_file (env : FileEnv) : RunResult :=
  let b := convert_file_body env
  { result := !b.exc && b.result, progress := b.progress,
    validated := b.validated, spawned := b.spawned,
    terminated := b.terminated, cmd := b.cmd }

/-- `convert_file_async` (lines 301-316): the boolean handed to
`completion_callback` is exactly `convert_file`'s return value. -/
def convert_file_async_callbackArg (env : FileEnv) : Bool :=
  (convert_file env).result

/-! ## `WebToMarkdownConverter` (`main.py` lines 28-188) -/

/-- Environment of one `convert_url` / `convert_youtube` invocation. -/
structure WebEnv where
  /-- the `url` argument -/
  url : String
  /-- the `output_path` argument -/
  outputPath : Option String
  /-- `requests.get` or `raise_for_status` raises (transport error or
  non-2xx status) -/
  httpExc : Bool
  /-- writing the output file raises -/
  writeExc : Bool
  /-- `pytube.YouTube(url)` (or reading its fields) raises -/
  ytExc : Bool

/-- Observable outcome of one web conversion: whether an exception
escaped to the enclosing `except`, the returned boolean, and the values
passed to `progress_callback`. -/
structure WebOut where
  exc : Bool
  result : Bool
  progress : List Nat
  deriving Repr, DecidableEq

/-- line 50: `"youtube.com" in url or "youtu.be" in url`. -/
def isYoutubeUrl (url : String) : Bool :=
  strContains "youtube.com" url || strContains "youtu.be" url

/-- `WebToMarkdownConverter.cancel_conversion` (lines 186-188): sets
`self.cancel_requested = True`.  The argument is the flag's prior value. -/
def cancel_conversion (_flag : Bool) : Bool := true

/-- The `try` body of `convert_youtube` (lines 113-163).  The
`cancelRequested` argument is `self.cancel_requested`; the body never
reads it. -/
def convert_youtube_body (cancelRequested : Bool) (env : WebEnv) : WebOut :=
  -- lines 114-129: progress 10, output path, ensure dir, progress 30
  if env.ytExc then { exc := true, result := false, progress := [10, 30] }
  else if env.writeExc then
    -- lines 136-157: progress 50, build markdown template, progress 80, write
    { exc := true, result := false, progress := [10, 30, 50, 80] }
  else { exc := false, result := true, progress := [10, 30, 50, 80, 100] }

/-- `convert_youtube` (lines 101-167): body plus the `except` handler
returning `False`. -/
def convert_youtube (cancelRequested : Bool) (env : WebEnv) : WebOut :=
  let b := convert_youtube_body cancelRequested env
  { exc := false, result := !b.exc && b.result, progress := b.progress }

/-- The `try` body of `convert_url` (lines 45-95). -/
def convert_url_body (cancelRequested : Bool) (env : WebEnv) : WebOut :=
  -- line 47: progress 10; line 50: YouTube URL dispatch
  if isYoutubeUrl env.url then
    let r := convert_youtube cancelRequested env
    { exc := false, result := r.result, progress := 10 :: r.progress }
  else if env.httpExc then
    -- lines 56-75: output path, progress 20, `requests.get`, `raise_for_status`
    { exc := true, result := false, progress := [10, 20] }
  else if env.writeExc then
    -- lines 77-89: progress 50, markdownify, progress 80, write
    { exc := true, result := false, progress := [10, 20, 50, 80] }
  else { exc := false, result := true, progress := [10, 20, 50, 80, 100] }

/-- `convert_url` (lines 33-99): body plus the `except` handler
returning `False`. -/
def convert_url (cancelRequested : Bool) (env : WebEnv) : WebOut :=
  let b := convert_url_body cancelRequested env
  { exc := false, result := !b.exc && b.result, progress := b.progress }

/-! ## `DoclingToMarkdownConverter.convert_directory` (lines 322-411) -/

/-- One entry yielded by `input_path.iterdir()`. -/
structure DirEntry where
  /-- `file_path.is_file()` -/
  file : Bool
  /-- `file_path.suffix` -/
  suffix : String
  /-- `file_path.stem` -/
  stem : String
  deriving Repr, DecidableEq

/-- The `stats` dictionary (lines 335-341). -/
structure DirStats where
  total_files : Nat
  converted : Nat
  failed : Nat
  skipped : Nat
  in_progress : Nat
  deriving Repr, DecidableEq

/-- lines 347-355: `files_to_convert`, the direct children that are
files with a supported extension. -/
def filesToConvert (entries : List DirEntry) : List DirEntry :=
  entries.filter
    (fun e => e.file && get_supported_extensions.contains (strLower e.suffix))

/-- The `stats` dictionary at the end of the enumeration loop
(lines 347-355): files counted, unsupported files skipped, nothing yet
converted, failed or in progress. -/
def enumStats (entries : List DirEntry) : DirStats :=
  { total_files := entries.countP (fun e => e.file)
    converted := 0
    failed := 0
    skipped := entries.countP
      (fun e => e.file && !(get_supported_extensions.contains (strLower e.suffix)))
    in_progress := 0 }

/-- Events mutating `stats` after enumeration: a fan-out submission
(line 391, `stats['in_progress'] += 1`) or a child job's completion
callback (`file_converted`, lines 369-381) carrying its success flag. -/
inductive DirEvent where
  | submit : DirEvent
  | complete : Bool → DirEvent
  deriving Repr, DecidableEq

/-- `file_converted` (lines 369-381), for a batch of `K` convertible
files: updates the tallies and reports whether `completion_callback`
fired (it fires iff one was passed and `converted + failed == K` after
the update). -/
def file_converted (K : Nat) (hasCb : Bool) (s : DirStats) (success : Bool) :
    DirStats × Bool :=
  let s1 := if success then { s with converted := s.converted + 1 }
            else { s with failed := s.failed + 1 }
  let s2 := { s1 with in_progress := s1.in_progress - 1 }
  (s2, hasCb && decide (s2.converted + s2.failed = K))

/-- One event's effect on `stats`, returning the new state and whether
the per-batch `completion_callback` fired at this event. -/
def dirStep (K : Nat) (hasCb : Bool) (s : DirStats) : DirEvent → DirStats × Bool
  | .submit => ({ s with in_progress := s.in_progress + 1 }, false)
  | .complete ok => file_converted K hasCb s ok

/-- Folding a sequence of events over `stats`: final state and the
number of times `completion_callback` fired. -/
def dirRun (K : Nat) (hasCb : Bool) (s : DirStats) : List DirEvent → DirStats × Nat
  | [] => (s, 0)
  | e :: evs =>
    let r := dirStep K hasCb s e
    let t := dirRun K hasCb r.1 evs
    (t.1, (if r.2 then 1 else 0) + t.2)

/-- The successive values of `stats` along an event sequence (head =
state at the end of enumeration). -/
def dirStates (K : Nat) (hasCb : Bool) (s : DirStats) : List DirEvent → List DirStats
  | [] => [s]
  | e :: evs => s :: dirStates K hasCb (dirStep K hasCb s e).1 evs

/-- The `stats` values taken during one `convert_directory` run on the
given entries, under the given post-enumeration event schedule (a
completion callback was passed, as the claim assumes). -/
def convert_directory_states (entries : List DirEntry) (evs : List DirEvent) :
    List DirStats :=
  dirStates (filesToConvert entries).length true (enumStats entries) evs

/-- Number of submit events. -/
def sCount : List DirEvent → Nat
  | [] => 0
  | .submit :: es => sCount es + 1
  | .complete _ :: es => sCount es

/-- Number of completion events. -/
def cCount : List DirEvent → Nat
  | [] => 0
  | .submit :: es => cCount es
  | .complete _ :: es => cCount es + 1

/-- A legal schedule for a batch of `K` convertible files: every child is
submitted once and completes once, and no child completes before it was
submitted. -/
def ValidSchedule (K : Nat) (evs : List DirEvent) : Prop :=
  sCount evs = K ∧ cCount evs = K ∧
    ∀ p t, p ++ t = evs → cCount p ≤ sCount p

/-- The event order on the single-worker executor lane when
`convert_directory` runs as a task on that lane (as
`convert_directory_async` runs it): the K fan-out submissions happen
first — the children are queued behind the running task — and the child
completions follow. -/
def laneEvents (K : Nat) (outcomes : List Bool) : List DirEvent :=
  List.replicate K DirEvent.submit ++ outcomes.map DirEvent.complete

/-- The value of `stats` at the moment `convert_directory` returns on
the single-worker lane (lines 357-360 and 384-394): the enumeration
tallies plus one `in_progress` increment per convertible file, no child
having run yet. -/
def convert_directory_return (entries : List DirEntry) : DirStats :=
  (dirRun (filesToConvert entries).length false (enumStats entries)
    (List.replicate (filesToConvert entries).length DirEvent.submit)).1

/-- Number of times `convert_directory` itself fires the
`completion_callback` it was passed (`hasCb`), given the
post-enumeration schedule: with no convertible file it fires once
immediately (lines 357-360), otherwise only `file_converted` can fire it. -/
def convert_directory_fireCount (entries : List DirEntry) (hasCb : Bool)
    (evs : List DirEvent) : Nat :=
  if (filesToConvert entries).length = 0 then (if hasCb then 1 else 0)
  else (dirRun (filesToConvert entries).length hasCb (enumStats entries) evs).2

/-- `convert_directory_async` (lines 396-411): `_convert_and_notify`
calls `convert_directory(input_dir, output_dir, progress_callback)` —
forwarding NO completion callback — and then immediately calls its own
`completion_callback(stats)` on the returned dictionary.  This is the
`stats` value that callback receives (no child has completed yet on the
single-worker lane). -/
def convert_directory_async_wrapperArg (entries : List DirEntry) : DirStats :=
  convert_directory_return entries

/-- In a `convert_directory_async` run, the number of times the inner
(per-batch) completion fires: the wrapper passes no callback inward, so
`hasCb = false`. -/
def convert_directory_async_innerFireCount (entries : List DirEntry)
    (outcomes : List Bool) : Nat :=
  convert_directory_fireCount entries false
    (laneEvents (filesToConvert entries).length outcomes)

/-! ## Concrete environments for closed instances -/

/-- An existing supported input with a well-behaved external process. -/
def baseFileEnv : FileEnv :=
  { inputPath := "doc.pdf", inputExists := true, suffix := ".pdf",
    stem := "doc", fileSize := 100, outputPath := none, initCancel := false,
    popenRaises := false, iterations := 3, stdoutLine := fun _ => true,
    stderrLine := fun _ => false, finalStdout := false, finalStderr := false,
    returncode := 0, cancelEvent := none }

/-- Same input, but `cancel_conversion` is called before the first loop
iteration's flag check. -/
def cancelFileEnv : FileEnv := { baseFileEnv with cancelEvent := some 0 }

/-- Same input, but spawning `docling` raises. -/
def popenFailEnv : FileEnv := { baseFileEnv with popenRaises := true }

/-- Same input, above the 5 MiB threshold. -/
def bigFileEnv : FileEnv := { baseFileEnv with fileSize := 6 * 1024 * 1024 }

/-- A directory entry for a supported file. -/
def pdfEntry : DirEntry := { file := true, suffix := ".pdf", stem := "doc" }

/-- A well-behaved non-YouTube web conversion. -/
def plainWebEnv : WebEnv :=
  { url := "https://example.com/page", outputPath := none,
    httpExc := false, writeExc := false, ytExc := false }

/-- A web conversion whose HTTP fetch raises. -/
def httpFailEnv : WebEnv := { plainWebEnv with httpExc := true }


/-- A directory entry for an unsupported file. -/
def exeEntry : DirEntry := { file := true, suffix := ".exe", stem := "x" }

/-- The `stats` value after the event sequence `p` of a
`convert_directory` run (with a completion callback passed) on the given
entries. -/
def batchState (entries : List DirEntry) (p : List DirEvent) : DirStats :=
  (dirRun (filesToConvert entries).length true (enumStats entries) p).1

/-! ## Lemmas about the monitoring loop -/

/-- Once the cancellation flag reads true, it reads true at every later
iteration. (Contrapositive form.) -/
lemma cancelObserved_mono_false {env : FileEnv} {i k : Nat}
    (h : cancelObserved env k = false) (hik : i ≤ k) :
    cancelObserved env i = false := by
  unfold cancelObserved at *
  cases hc : env.cancelEvent with
  | none => rfl
  | some j =>
    rw [hc] at h
    simp only [decide_eq_false_iff_not] at h ⊢
    omega

/-- If cancellation becomes visible within the loop's window, the loop
exits through the cancellation branch. -/
lemma monitor_cancelled {env : FileEnv} {j : Nat} (hj : env.cancelEvent = some j) :
    ∀ fuel i lines, i ≤ j → j < i + fuel →
      (monitor env i fuel lines).2 = none := by
  intro fuel
  induction fuel with
  | zero => intro i lines h1 h2; omega
  | succ f ih =>
    intro i lines h1 h2
    by_cases hobs : cancelObserved env i = true
    · simp [monitor, hobs]
    · have hji : ¬ j ≤ i := by
        intro hle
        apply hobs
        unfold cancelObserved
        rw [hj]
        simpa using hle
      simp only [monitor, Bool.not_eq_true, hobs, eq_self_iff_true, if_false,
        Bool.false_eq_true]
      exact ih (i + 1) _ (by omega) (by omega)

/-- Without a cancellation event the loop always runs to process exit. -/
lemma monitor_completes {env : FileEnv} (hn : env.cancelEvent = none) :
    ∀ fuel i lines, (monitor env i fuel lines).2.isSome = true := by
  intro fuel
  induction fuel with
  | zero => intro i lines; simp [monitor]
  | succ f ih =>
    intro i lines
    have hobs : cancelObserved env i = false := by
      unfold cancelObserved; rw [hn]
    simp only [monitor, hobs, Bool.false_eq_true, if_false]
    exact ih (i + 1) _

/-- The in-loop progress reports are non-decreasing, bounded below by the
estimate at entry and above by 90. -/
lemma monitor_sorted_bounds (env : FileEnv) :
    ∀ fuel i lines,
      List.Pairwise (· ≤ ·) (monitor env i fuel lines).1 ∧
      ∀ x ∈ (monitor env i fuel lines).1,
        min 90 (10 + 2 * lines) ≤ x ∧ x ≤ 90 := by
  intro fuel
  induction fuel with
  | zero => intro i lines; simp [monitor]
  | succ f ih =>
    intro i lines
    by_cases hobs : cancelObserved env i = true
    · simp [monitor, hobs]
    · simp only [Bool.not_eq_true] at hobs
      simp only [monitor, hobs, Bool.false_eq_true, if_false]
      set lines1 := lines + (if env.stdoutLine i then 1 else 0) with hl1
      obtain ⟨hpw, hbd⟩ := ih (i + 1) lines1
      have hmono : min 90 (10 + 2 * lines) ≤ min 90 (10 + 2 * lines1) := by
        have : lines ≤ lines1 := by omega
        omega
      constructor
      · refine List.pairwise_cons.mpr ⟨?_, hpw⟩
        intro b hb
        have := (hbd b hb).1
        omega
      · intro x hx
        rcases List.mem_cons.mp hx with hx | hx
        · subst hx; omega
        · have := hbd x hx
          omega

/-- Counting over `range'` peels off its first element. -/
lemma countP_range'_succ (f : Nat → Bool) (i n : Nat) :
    (List.range' i (n + 1)).countP f =
      (List.range' (i + 1) n).countP f + (if f i then 1 else 0) := by
  rw [List.range'_succ, List.countP_cons]

/-- The `k`-th in-loop progress report equals the source's heuristic
`min(90, 10 + 2*len(stdout_lines))`, where `len(stdout_lines)` counts the
lines read at iterations `i, …, i+k` on top of the `lines` already read. -/
lemma monitor_get (env : FileEnv) :
    ∀ fuel k i lines, k < fuel → cancelObserved env (i + k) = false →
      (monitor env i fuel lines).1.get? k =
        some (min 90 (10 + 2 *
          (lines + (List.range' i (k + 1)).countP env.stdoutLine))) := by
  intro fuel
  induction fuel with
  | zero => intro k i lines hk; omega
  | succ f ih =>
    intro k i lines hk hc
    have hobs : cancelObserved env i = false :=
      cancelObserved_mono_false hc (by omega)
    simp only [monitor, hobs, Bool.false_eq_true, if_false]
    cases k with
    | zero =>
      simp only [List.get?_cons_zero, Option.some.injEq]
      have : (List.range' i 1).countP env.stdoutLine =
          (if env.stdoutLine i then 1 else 0) := by
        simp [List.range'_succ, List.countP_cons, List.countP_nil]
      rw [this]
    | succ k' =>
      simp only [List.get?_cons_succ]
      have hc' : cancelObserved env ((i + 1) + k') = false := by
        have : (i + 1) + k' = i + (k' + 1) := by omega
        rw [this]; exact hc
      rw [ih k' (i + 1) _ (by omega) hc']
      have hcount : (lines + (if env.stdoutLine i then 1 else 0)) +
          (List.range' (i + 1) (k' + 1)).countP env.stdoutLine =
          lines + (List.range' i (k' + 1 + 1)).countP env.stdoutLine := by
        rw [countP_range'_succ env.stdoutLine i (k' + 1)]
        cases hline : env.stdoutLine i <;> simp [hline] <;> omega
      rw [hcount]


/-! ## Lemmas about the batch coordinator -/

/-- Every post-enumeration event is a submission or a completion. -/
lemma sCount_add_cCount (evs : List DirEvent) :
    sCount evs + cCount evs = evs.length := by
  induction evs with
  | nil => rfl
  | cons e es ih =>
    cases e <;> simp only [sCount, cCount, List.length_cons] <;> omega

/-- `sCount` distributes over append. -/
lemma sCount_append (p t : List DirEvent) :
    sCount (p ++ t) = sCount p + sCount t := by
  induction p with
  | nil => simp [sCount]
  | cons e es ih =>
    cases e <;> rw [List.cons_append] <;> simp only [sCount] <;> omega

/-- `cCount` distributes over append. -/
lemma cCount_append (p t : List DirEvent) :
    cCount (p ++ t) = cCount p + cCount t := by
  induction p with
  | nil => simp [cCount]
  | cons e es ih =>
    cases e <;> rw [List.cons_append] <;> simp only [cCount] <;> omega

/-- Running a concatenated schedule is running its parts in sequence. -/
lemma dirRun_append (K : Nat) (hasCb : Bool) :
    ∀ p t (s : DirStats),
      (dirRun K hasCb s (p ++ t)).1
          = (dirRun K hasCb (dirRun K hasCb s p).1 t).1 ∧
      (dirRun K hasCb s (p ++ t)).2
          = (dirRun K hasCb s p).2 + (dirRun K hasCb (dirRun K hasCb s p).1 t).2 := by
  intro p
  induction p with
  | nil => intro t s; simp [dirRun]
  | cons e es ih =>
    intro t s
    obtain ⟨h1, h2⟩ := ih t (dirStep K hasCb s e).1
    rw [List.cons_append]
    simp only [dirRun]
    exact ⟨h1, by omega⟩

/-- Splitting a count by a second test. -/
lemma countP_split {α : Type} (l : List α) (f g : α → Bool) :
    l.countP f =
      l.countP (fun x => f x && !(g x)) + l.countP (fun x => f x && g x) := by
  induction l with
  | nil => rfl
  | cons x xs ih =>
    simp only [List.countP_cons]
    cases hf : f x <;> cases hg : g x <;> simp [hf, hg] <;> omega

/-- The enumeration tallies: files minus skipped equals the number of
convertible files. -/
lemma enumStats_total_eq (entries : List DirEntry) :
    (enumStats entries).total_files =
      (enumStats entries).skipped + (filesToConvert entries).length := by
  simp only [enumStats, filesToConvert]
  rw [← List.countP_eq_length_filter]
  exact countP_split entries (fun e => e.file)
    (fun e => get_supported_extensions.contains (strLower e.suffix))

/-- Bookkeeping of the `stats` counters along any schedule in which no
child completes before being submitted: completions tally into
`converted + failed`, submissions minus completions remain `in_progress`,
and the enumeration fields are never touched. -/
lemma dirRun_counts (K : Nat) (hasCb : Bool) :
    ∀ (evs : List DirEvent) (s : DirStats),
      (∀ p t, p ++ t = evs → cCount p ≤ s.in_progress + sCount p) →
      ((dirRun K hasCb s evs).1.converted + (dirRun K hasCb s evs).1.failed
          = s.converted + s.failed + cCount evs) ∧
      ((dirRun K hasCb s evs).1.in_progress + cCount evs
          = s.in_progress + sCount evs) ∧
      (dirRun K hasCb s evs).1.total_files = s.total_files ∧
      (dirRun K hasCb s evs).1.skipped = s.skipped := by
  intro evs
  induction evs with
  | nil =>
    intro s _
    simp [dirRun, sCount, cCount]
  | cons e es ih =>
    intro s hpre
    cases e with
    | submit =>
      have hnext := ih { s with in_progress := s.in_progress + 1 } ?_
      · have hstep : (dirStep K hasCb s DirEvent.submit).1 =
            { s with in_progress := s.in_progress + 1 } := rfl
        simp only [dirRun, hstep]
        simp only [sCount, cCount] at hnext ⊢
        obtain ⟨h1, h2, h3, h4⟩ := hnext
        exact ⟨by omega, by omega, h3, h4⟩
      · intro p t hpt
        have := hpre (DirEvent.submit :: p) t (by rw [← hpt]; rfl)
        simp only [sCount, cCount] at this ⊢
        omega
    | complete ok =>
      have hip : 1 ≤ s.in_progress := by
        have := hpre [DirEvent.complete ok] es rfl
        simp only [sCount, cCount] at this
        omega
      have hstep1 : (dirStep K hasCb s (DirEvent.complete ok)).1.converted +
            (dirStep K hasCb s (DirEvent.complete ok)).1.failed
          = s.converted + s.failed + 1 := by
        cases ok <;> simp [dirStep, file_converted] <;> omega
      have hstep2 : (dirStep K hasCb s (DirEvent.complete ok)).1.in_progress
          = s.in_progress - 1 := by
        cases ok <;> simp [dirStep, file_converted]
      have hstep3 : (dirStep K hasCb s (DirEvent.complete ok)).1.total_files
            = s.total_files ∧
          (dirStep K hasCb s (DirEvent.complete ok)).1.skipped = s.skipped := by
        cases ok <;> simp [dirStep, file_converted]
      have hnext := ih (dirStep K hasCb s (DirEvent.complete ok)).1 ?_
      · simp only [dirRun]
        simp only [sCount, cCount] at hnext ⊢
        obtain ⟨h1, h2, h3, h4⟩ := hnext
        obtain ⟨h5, h6⟩ := hstep3
        refine ⟨by omega, by omega, by omega, by omega⟩
      · intro p t hpt
        have := hpre (DirEvent.complete ok :: p) t (by rw [← hpt]; rfl)
        simp only [sCount, cCount] at this ⊢
        rw [hstep2]
        omega

/-! ## Branch characterizations of `convert_file` -/

/-- Missing input: early `False` return (lines 210-212). -/
lemma convert_file_noexist (env : FileEnv) (hex : env.inputExists = false) :
    convert_file env =
      ⟨false, [], false, false, false, []⟩ := by
  simp [convert_file, convert_file_body, hex]

/-- Unsupported extension: early `False` return (lines 214-216). -/
lemma convert_file_unsupported (env : FileEnv)
    (hsup : get_supported_extensions.contains (strLower env.suffix) = false) :
    convert_file env =
      ⟨false, [], false, false, false, []⟩ := by
  have hmem : strLower env.suffix ∉ get_supported_extensions := by
    simpa using hsup
  cases hex : env.inputExists with
  | false => exact convert_file_noexist env hex
  | true => simp [convert_file, convert_file_body, hex, hmem]

/-- `Popen` raising lands in the `except` handler after the initial
progress report. -/
lemma convert_file_popen (env : FileEnv) (hex : env.inputExists = true)
    (hsup : get_supported_extensions.contains (strLower env.suffix) = true)
    (hp : env.popenRaises = true) :
    convert_file env =
      ⟨false, [10], true, false, false,
        buildCmd env.inputPath (resolvedOutput env) env.fileSize⟩ := by
  have hmem : strLower env.suffix ∈ get_supported_extensions := by
    simpa using hsup
  simp [convert_file, convert_file_body, hex, hmem, hp]

/-- A spawned run is fully determined by the monitor's outcome and the
exit code. -/
lemma convert_file_spawned (env : FileEnv) (hex : env.inputExists = true)
    (hsup : get_supported_extensions.contains (strLower env.suffix) = true)
    (hp : env.popenRaises = false) :
    convert_file env =
      (if (monitor env 0 env.iterations 0).2.isNone then
        ⟨false, 10 :: (monitor env 0 env.iterations 0).1, true, true, true,
          buildCmd env.inputPath (resolvedOutput env) env.fileSize⟩
      else if env.returncode = 0 then
        ⟨true, (10 :: (monitor env 0 env.iterations 0).1) ++ [100], true, true,
          false, buildCmd env.inputPath (resolvedOutput env) env.fileSize⟩
      else
        ⟨false, 10 :: (monitor env 0 env.iterations 0).1, true, true, false,
          buildCmd env.inputPath (resolvedOutput env) env.fileSize⟩) := by
  have hmem : strLower env.suffix ∈ get_supported_extensions := by
    simpa using hsup
  cases hmon : (monitor env 0 env.iterations 0).2 with
  | none => simp [convert_file, convert_file_body, hex, hmem, hp, hmon]
  | some lines =>
    by_cases hrc : env.returncode = 0 <;>
      simp [convert_file, convert_file_body, hex, hmem, hp, hmon, hrc]

/-! ## Claims -/

/-- C1: if the cancellation flag is set while the external process is
still running (observed at a loop iteration before the process exits),
`convert_file` terminates the process via `terminate()` (graceful, not
kill) and returns `False`, never `True`. -/
theorem C1_cancel_fails_and_terminates (env : FileEnv) (j : Nat)
    (hex : env.inputExists = true)
    (hsup : get_supported_extensions.contains (strLower env.suffix) = true)
    (hp : env.popenRaises = false)
    (hc : env.cancelEvent = some j) (hj : j < env.iterations) :
    (convert_file env).result = false ∧
    (convert_file env).terminated = true := by
  have hmon : (monitor env 0 env.iterations 0).2 = none :=
    monitor_cancelled hc env.iterations 0 0 (by omega) (by omega)
  rw [convert_file_spawned env hex hsup hp]
  simp [hmon]

/-- C1 witness: a concrete cancelled run returns failure and has
terminated its process. -/
theorem C1_witness :
    (convert_file cancelFileEnv).result = false ∧
    (convert_file cancelFileEnv).terminated = true :=
  C1_cancel_fails_and_terminates cancelFileEnv 0 rfl (by decide) rfl rfl
    (by decide)

/-- C3: an existing input whose lowercased extension is in the supported
set passes validation; any input with an unsupported extension fails
immediately and `docling` is never spawned. -/
theorem C3_validation_gate (env : FileEnv) :
    (env.inputExists = true →
      get_supported_extensions.contains (strLower env.suffix) = true →
      (convert_file env).validated = true)
    ∧ (get_supported_extensions.contains (strLower env.suffix) = false →
      (convert_file env).result = false ∧ (convert_file env).spawned = false) := by
  constructor
  · intro hex hsup
    by_cases hp : env.popenRaises = true
    · rw [convert_file_popen env hex hsup hp]
    · rw [convert_file_spawned env hex hsup (by simpa using hp)]
      split
      · rfl
      · split <;> rfl
  · intro hsup
    rw [convert_file_unsupported env hsup]
    exact ⟨rfl, rfl⟩

/-- C3 witness: the base environment passes validation, and the same
input with a `.exe` suffix is rejected without a spawn. -/
theorem C3_witness :
    (convert_file baseFileEnv).validated = true ∧
    (convert_file { baseFileEnv with suffix := ".exe" }).result = false ∧
    (convert_file { baseFileEnv with suffix := ".exe" }).spawned = false :=
  ⟨(C3_validation_gate baseFileEnv).1 rfl (by decide),
   (C3_validation_gate { baseFileEnv with suffix := ".exe" }).2 (by decide)⟩

/-- C4: every failure inside the invokers — missing input, unsupported
format, non-zero exit, network failure, or any exception reaching the
`except` handler — becomes a `False` return; a `True` return is only
possible with no exception and exit code 0. -/
theorem C4_invoker_boundary (fenv : FileEnv) (wenv : WebEnv) (b : Bool) :
    ((convert_file_body fenv).exc = true → (convert_file fenv).result = false)
    ∧ ((convert_url_body b wenv).exc = true → (convert_url b wenv).result = false)
    ∧ ((convert_youtube_body b wenv).exc = true →
        (convert_youtube b wenv).result = false)
    ∧ ((convert_file fenv).result = true →
        (convert_file_body fenv).exc = false ∧ fenv.returncode = 0) := by
  refine ⟨?_, ?_, ?_, ?_⟩
  · intro h; simp [convert_file, h]
  · intro h; simp [convert_url, h]
  · intro h; simp [convert_youtube, h]
  · intro h
    have h' : (!(convert_file_body fenv).exc
        && (convert_file_body fenv).result) = true := h
    rw [Bool.and_eq_true, Bool.not_eq_true'] at h'
    refine ⟨h'.1, ?_⟩
    by_cases hex : fenv.inputExists = true
    · by_cases hsup :
          get_supported_extensions.contains (strLower fenv.suffix) = true
      · by_cases hp : fenv.popenRaises = true
        · rw [convert_file_popen fenv hex hsup hp] at h
          simp at h
        · rw [convert_file_spawned fenv hex hsup (by simpa using hp)] at h
          by_cases hrc : fenv.returncode = 0
          · exact hrc
          · revert h; split <;> simp [hrc]
      · rw [convert_file_unsupported fenv (by simpa using hsup)] at h
        simp at h
    · rw [convert_file_noexist fenv (by simpa using hex)] at h
      simp at h

/-- C4 witness: a raising `Popen` and a raising HTTP fetch both surface
as `False` results. -/
theorem C4_witness :
    (convert_file popenFailEnv).result = false ∧
    (convert_url false httpFailEnv).result = false :=
  ⟨(C4_invoker_boundary popenFailEnv httpFailEnv false).1 (by decide),
   (C4_invoker_boundary popenFailEnv httpFailEnv false).2.1 (by decide)⟩

/-- C5: within one `convert_file` invocation the progress values are
non-decreasing, and a successful conversion's final report is exactly
100. -/
theorem C5_progress_monotone (env : FileEnv) :
    List.Pairwise (· ≤ ·) (convert_file env).progress ∧
    ((convert_file env).result = true →
      (convert_file env).progress.getLast? = some 100) := by
  by_cases hex : env.inputExists = true
  · by_cases hsup :
        get_supported_extensions.contains (strLower env.suffix) = true
    · by_cases hp : env.popenRaises = true
      · rw [convert_file_popen env hex hsup hp]
        simp
      · rw [convert_file_spawned env hex hsup (by simpa using hp)]
        obtain ⟨hpw, hbd⟩ := monitor_sorted_bounds env env.iterations 0 0
        have h10 : ∀ x ∈ (monitor env 0 env.iterations 0).1, 10 ≤ x ∧ x ≤ 90 := by
          intro x hx
          have := hbd x hx
          omega
        split
        · constructor
          · exact List.pairwise_cons.mpr ⟨fun b hb => (h10 b hb).1, hpw⟩
          · simp
        · split
          · constructor
            · rw [List.pairwise_append]
              refine ⟨List.pairwise_cons.mpr ⟨fun b hb => (h10 b hb).1, hpw⟩,
                List.pairwise_singleton _ _, ?_⟩
              intro a ha b hb
              rcases List.mem_cons.mp ha with ha | ha <;>
                rcases List.mem_singleton.mp hb with rfl
              · omega
              · have := (h10 a ha).2; omega
            · intro _
              exact List.getLast?_concat _
          · constructor
            · exact List.pairwise_cons.mpr ⟨fun b hb => (h10 b hb).1, hpw⟩
            · simp
    · rw [convert_file_unsupported env (by simpa using hsup)]
      simp
  · rw [convert_file_noexist env (by simpa using hex)]
    simp

/-- C6: inside the monitoring loop, the `k`-th reported estimate equals
`min(90, 10 + 2 * linesRead)` where `linesRead` counts the stdout lines
read up to and including iteration `k` — hence it never exceeds 90 while
the process runs — and 100 appears among the reports only for a run
whose process exited (successfully). -/
theorem C6_progress_heuristic (env : FileEnv) (k : Nat) :
    (env.inputExists = true →
      get_supported_extensions.contains (strLower env.suffix) = true →
      env.popenRaises = false →
      cancelObserved env k = false →
      k < env.iterations →
      (convert_file env).progress.get? (k + 1) =
        some (min 90 (10 + 2 * (List.range' 0 (k + 1)).countP env.stdoutLine)))
    ∧ (100 ∈ (convert_file env).progress → (convert_file env).result = true) := by
  constructor
  · intro hex hsup hp hc hk
    have hget : (monitor env 0 env.iterations 0).1.get? k =
        some (min 90 (10 + 2 *
          (0 + (List.range' 0 (k + 1)).countP env.stdoutLine))) :=
      monitor_get env env.iterations k 0 0 hk (by simpa using hc)
    rw [Nat.zero_add] at hget
    have hlen : k < (monitor env 0 env.iterations 0).1.length := by
      rcases List.get?_eq_some.mp hget with ⟨hlt, _⟩
      exact hlt
    rw [convert_file_spawned env hex hsup hp]
    split
    · simpa using hget
    · split
      · show ((10 :: (monitor env 0 env.iterations 0).1) ++ [100]).get? (k + 1) = _
        rw [List.get?_append (by simpa using Nat.succ_lt_succ hlen)]
        simpa using hget
      · simpa using hget
  · intro hmem
    by_cases hex : env.inputExists = true
    · by_cases hsup :
          get_supported_extensions.contains (strLower env.suffix) = true
      · by_cases hp : env.popenRaises = true
        · rw [convert_file_popen env hex hsup hp] at hmem ⊢
          simp at hmem
        · obtain ⟨_, hbd⟩ := monitor_sorted_bounds env env.iterations 0 0
          rw [convert_file_spawned env hex hsup (by simpa using hp)] at hmem ⊢
          revert hmem
          split
          · intro hmem
            exfalso
            simp only [List.mem_cons] at hmem
            rcases hmem with h | h
            · omega
            · have := (hbd 100 h).2; omega
          · split
            · intro _; rfl
            · intro hmem
              exfalso
              simp only [List.mem_cons] at hmem
              rcases hmem with h | h
              · omega
              · have := (hbd 100 h).2; omega
      · rw [convert_file_unsupported env (by simpa using hsup)] at hmem ⊢
        simp at hmem
    · rw [convert_file_noexist env (by simpa using hex)] at hmem ⊢
      simp at hmem

/-- C6 witness: in a concrete run, the report after the second loop
iteration is `min(90, 10 + 2*2) = 14` (one stdout line per iteration). -/
theorem C6_witness :
    (convert_file baseFileEnv).progress.get? 2 = some 14 := by
  have h := (C6_progress_heuristic baseFileEnv 1).1 rfl (by decide) rfl
    (by decide) (by decide)
  rw [h]
  decide

/-- Setting the record's `initCancel` field leaves the loop's flag reads
unchanged (only `cancelEvent` is consulted). -/
lemma cancelObserved_initCancel (env : FileEnv) (b : Bool) (i : Nat) :
    cancelObserved { env with initCancel := b } i = cancelObserved env i := rfl

/-- The monitoring loop never reads the converter's entry-time flag. -/
lemma monitor_initCancel (env : FileEnv) (b : Bool) :
    ∀ fuel i lines,
      monitor { env with initCancel := b } i fuel lines =
        monitor env i fuel lines := by
  intro fuel
  induction fuel with
  | zero => intro i lines; rfl
  | succ f ih =>
    intro i lines
    simp only [monitor, cancelObserved_initCancel]
    rw [ih]

/-- C8: `convert_file` resets the cancellation flag before starting the
process, so the flag value at entry is irrelevant to the whole run, and a
run during which `cancel_conversion` is never called is never
terminated early. -/
theorem C8_fresh_token (env : FileEnv) (b : Bool) :
    convert_file { env with initCancel := b } = convert_file env
    ∧ (env.cancelEvent = none → (convert_file env).terminated = false) := by
  constructor
  · simp only [convert_file, convert_file_body]
    rw [monitor_initCancel]
    rfl
  · intro hn
    have hsome : (monitor env 0 env.iterations 0).2.isSome = true :=
      monitor_completes hn env.iterations 0 0
    by_cases hex : env.inputExists = true
    · by_cases hsup :
          get_supported_extensions.contains (strLower env.suffix) = true
      · by_cases hp : env.popenRaises = true
        · rw [convert_file_popen env hex hsup hp]
        · rw [convert_file_spawned env hex hsup (by simpa using hp)]
          have : (monitor env 0 env.iterations 0).2.isNone = false := by
            rcases Option.isSome_iff_exists.mp hsome with ⟨a, ha⟩
            simp [ha]
          rw [this]
          simp only [Bool.false_eq_true, if_false]
          split <;> rfl
      · rw [convert_file_unsupported env (by simpa using hsup)]
    · rw [convert_file_noexist env (by simpa using hex)]

/-- C8 witness: a stale set flag at entry does not pre-cancel a new run,
and with no new cancellation the process is not terminated. -/
theorem C8_witness :
    convert_file { baseFileEnv with initCancel := true } = convert_file baseFileEnv
    ∧ (convert_file baseFileEnv).terminated = false :=
  ⟨(C8_fresh_token baseFileEnv true).1, (C8_fresh_token baseFileEnv true).2 rfl⟩

/-- C9: when the input exceeds 5 MiB the `docling` command line carries
the appended `--optimize-large-files` hint, and otherwise it is exactly
the base command without it. -/
theorem C9_large_file_flag (env : FileEnv)
    (hex : env.inputExists = true)
    (hsup : get_supported_extensions.contains (strLower env.suffix) = true) :
    (5 * 1024 * 1024 < env.fileSize →
      (convert_file env).cmd =
        ["docling", env.inputPath, "--output", resolvedOutput env,
         "--optimize-large-files"])
    ∧ (env.fileSize ≤ 5 * 1024 * 1024 →
      (convert_file env).cmd =
        ["docling", env.inputPath, "--output", resolvedOutput env]) := by
  have hcmd : (convert_file env).cmd =
      buildCmd env.inputPath (resolvedOutput env) env.fileSize := by
    by_cases hp : env.popenRaises = true
    · rw [convert_file_popen env hex hsup hp]
    · rw [convert_file_spawned env hex hsup (by simpa using hp)]
      split
      · rfl
      · split <;> rfl
  rw [hcmd]
  constructor
  · intro hbig
    simp [buildCmd, hbig]
  · intro hsmall
    have : ¬ (5 * 1024 * 1024 < env.fileSize) := by omega
    simp [buildCmd, this]

/-- C9 witness: a 6 MiB input gets the flag, the 100-byte input does
not. -/
theorem C9_witness :
    (convert_file bigFileEnv).cmd =
      ["docling", "doc.pdf", "--output", "output_files/doc.md",
       "--optimize-large-files"]
    ∧ (convert_file baseFileEnv).cmd =
      ["docling", "doc.pdf", "--output", "output_files/doc.md"] :=
  ⟨(C9_large_file_flag bigFileEnv rfl (by decide)).1 (by decide),
   (C9_large_file_flag baseFileEnv rfl (by decide)).2 (by decide)⟩

/-- C10: `WebToMarkdownConverter.cancel_conversion` only sets the flag;
`convert_url` and `convert_youtube` never read it, so a conversion
behaves identically whether or not cancellation was requested — in
particular a web conversion still succeeds (returns `True`) after
`cancel_conversion` was called. -/
theorem C10_web_cancel_ineffective (env : WebEnv) (b : Bool) :
    convert_url (cancel_conversion b) env = convert_url b env
    ∧ convert_youtube (cancel_conversion b) env = convert_youtube b env
    ∧ (convert_url (cancel_conversion b) plainWebEnv).result = true := by
  refine ⟨rfl, rfl, ?_⟩
  show (convert_url true plainWebEnv).result = true
  decide

/-- C5 witness: a concrete successful run has a non-decreasing progress
sequence ending in 100. -/
theorem C5_witness :
    List.Pairwise (· ≤ ·) (convert_file baseFileEnv).progress ∧
    (convert_file baseFileEnv).progress.getLast? = some 100 :=
  ⟨(C5_progress_monotone baseFileEnv).1,
   (C5_progress_monotone baseFileEnv).2 (by decide)⟩

/-- C2 (evaluation at the failing input): for a directory with one
convertible file, `convert_directory_async`'s completion callback is
invoked with `converted = 0`, `failed = 0`, `in_progress = 1` — i.e. at a
moment when `converted + failed` (0) differs from the number of
convertible files (1) — because the wrapper calls the callback right
after `convert_directory` returns and never forwards it inward (the
forwarded-callback fire count is 0).  A direct `convert_directory` call
with a completion callback does fire it exactly once, and a directory
with no convertible file yields an immediate single fire with zero
tallies and `skipped = total`. -/
theorem C2_async_wrapper_premature_completion :
    convert_directory_async_wrapperArg [pdfEntry] =
      { total_files := 1, converted := 0, failed := 0, skipped := 0,
        in_progress := 1 }
    ∧ convert_directory_async_innerFireCount [pdfEntry] [true] = 0
    ∧ convert_directory_fireCount [pdfEntry] true (laneEvents 1 [true]) = 1
    ∧ convert_directory_async_wrapperArg [exeEntry] =
      { total_files := 1, converted := 0, failed := 0, skipped := 1,
        in_progress := 0 }
    ∧ convert_directory_fireCount [exeEntry] true [] = 1 := by
  refine ⟨?_, ?_, ?_, ?_, ?_⟩ <;> decide

/-- C7 counterexample: at the end of enumeration of a directory holding
one convertible file, the `stats` counters read `converted = failed =
in_progress = 0` while `total_files - skipped = 1`, so the claimed
invariant does not hold at every point from the end of enumeration on. -/
theorem C7_counterexample :
    ¬ (∀ s ∈ convert_directory_states [pdfEntry]
          [DirEvent.submit, DirEvent.complete true],
        s.converted + s.failed + s.in_progress
          = s.total_files - s.skipped) := by
  decide

/-- C7 (amended): in any legal schedule, from the moment all child-job
submissions have happened (the end of the fan-out loop) the counters
satisfy `converted + failed + in_progress = total_files - skipped`, and
once `in_progress` additionally reaches 0 the schedule is exhausted, so
the tallies are final. -/
theorem C7_amended_invariant (entries : List DirEntry)
    (evs p t : List DirEvent)
    (hval : ValidSchedule (filesToConvert entries).length evs)
    (hsplit : p ++ t = evs)
    (hsub : sCount p = (filesToConvert entries).length) :
    ((batchState entries p).converted + (batchState entries p).failed +
        (batchState entries p).in_progress
      = (batchState entries p).total_files - (batchState entries p).skipped)
    ∧ ((batchState entries p).in_progress = 0 →
        batchState entries evs = batchState entries p) := by
  obtain ⟨hS, hC, hpref⟩ := hval
  have hprep : ∀ p' t', p' ++ t' = p →
      cCount p' ≤ (enumStats entries).in_progress + sCount p' := by
    intro p' t' hp'
    have hp'evs : p' ++ (t' ++ t) = evs := by
      rw [← hsplit, ← hp', List.append_assoc]
    have := hpref p' (t' ++ t) hp'evs
    simpa [enumStats] using this
  obtain ⟨h1, h2, h3, h4⟩ :=
    dirRun_counts (filesToConvert entries).length true p (enumStats entries)
      hprep
  have htot := enumStats_total_eq entries
  have hzero : (enumStats entries).converted = 0 ∧
      (enumStats entries).failed = 0 ∧
      (enumStats entries).in_progress = 0 := ⟨rfl, rfl, rfl⟩
  constructor
  · show (batchState entries p).converted + (batchState entries p).failed +
        (batchState entries p).in_progress
      = (batchState entries p).total_files - (batchState entries p).skipped
    simp only [batchState]
    omega
  · intro hz
    simp only [batchState] at hz
    have hsplitS := sCount_append p t
    have hsplitC := cCount_append p t
    rw [hsplit] at hsplitS hsplitC
    have hlent := sCount_add_cCount t
    have htnil : t = [] := by
      have : t.length = 0 := by omega
      exact List.length_eq_zero.mp this
    subst htnil
    rw [← hsplit, List.append_nil]

/-- C7 witness: a concrete batch of one convertible file whose schedule
is fully fanned out satisfies the amended invariant at the end of the
fan-out. -/
theorem C7_amended_witness :
    (batchState [pdfEntry] [DirEvent.submit]).converted +
        (batchState [pdfEntry] [DirEvent.submit]).failed +
        (batchState [pdfEntry] [DirEvent.submit]).in_progress
      = (batchState [pdfEntry] [DirEvent.submit]).total_files -
        (batchState [pdfEntry] [DirEvent.submit]).skipped := by
  have hval : ValidSchedule (filesToConvert [pdfEntry]).length
      [DirEvent.submit, DirEvent.complete true] := by
    refine ⟨by decide, by decide, ?_⟩
    intro p t h
    rcases p with _ | ⟨e, p⟩
    · decide
    · rcases p with _ | ⟨e', p'⟩
      · simp only [List.cons_append, List.nil_append, List.cons.injEq] at h
        obtain ⟨rfl, -⟩ := h
        decide
      · simp only [List.cons_append, List.cons.injEq] at h
        obtain ⟨rfl, rfl, h3⟩ := h
        obtain ⟨rfl, rfl⟩ := List.append_eq_nil.mp h3
        decide
  exact (C7_amended_invariant [pdfEntry]
    [DirEvent.submit, DirEvent.complete true]
    [DirEvent.submit] [DirEvent.complete true] hval rfl (by decide)).1
